import Mathlib

/-!
Verification of the module registry and source-location resolution core of a
managed-runtime debugger backend (`Modules`, `SymbolReader`).

The C++ sources are shallowly embedded: HRESULT-returning operations become
`Option`-valued functions (`some` = success path, `none` = any failed
HRESULT), out-parameters become components of the returned value, machine
integers become `Nat`/`Int` with explicit reductions modulo `2 ^ 32` where the
source performs int32/uint32 conversions, and the external COM/provider
capabilities consumed through `ICorDebug*` interfaces are modelled as explicit
environment records whose fields give the outcome of each interface call.
-/

/-- Two to the 32, the modulus of the 32-bit machine integers used by the
source (`ULONG32`, `int32_t`). -/
def u32Mod : Nat := 4294967296

/-- The value of a `ULONG32` reinterpreted as an `int32_t`
(`static_cast<int32_t>` in the source): two's-complement wrap-around. -/
def toInt32 (n : Nat) : Int :=
  if n % u32Mod < 2147483648 then ((n % u32Mod : Nat) : Int)
  else ((n % u32Mod : Nat) : Int) - (u32Mod : Int)

/-- The value of an `int32_t` reinterpreted as a `ULONG32` (the usual
arithmetic conversion applied by `==` between `int32_t` and `ULONG32`). -/
def toUInt32 (i : Int) : Nat := (i % (u32Mod : Int)).toNat

theorem toInt32_of_lt (n : Nat) (h : n < 2147483648) : toInt32 n = (n : Int) := by
  simp only [toInt32, u32Mod]
  omega

theorem toUInt32_eq_iff (i : Int) (q : Nat)
    (h1 : -2147483648 ≤ i) (h2 : i < 2147483648) (hq : q < 2147483648) :
    toUInt32 i = q ↔ i = (q : Int) := by
  simp only [toUInt32, u32Mod]
  omega

/-- `SymbolReader::SequencePoint`: a provider-supplied sequence point.
`offset` is an `int32_t` in the source; the embedding uses `Int` together with
explicit int32-range hypotheses where the range matters. -/
structure SRSequencePoint where
  offset : Int
  startLine : Nat
  endLine : Nat
  startColumn : Nat
  endColumn : Nat
deriving DecidableEq, Repr

/-- `Modules::SequencePoint`: the sequence point written to the caller by
`GetFrameILAndSequencePoint` (the document name comes from
`GetLineByILOffset`, not from the provider's point). -/
structure ModSequencePoint where
  startLine : Nat
  endLine : Nat
  startColumn : Nat
  endColumn : Nat
  offset : Int
  document : String
deriving DecidableEq, Repr

/-- The scan of `Modules::GetFrameILAndSequencePoint` over the sequence-point
table (source lines 170-183).  `nearestPoint` is a reference to
`points.front()` in the source and each assignment overwrites that first
slot; since the loop reads the first slot only in its first iteration (a
self-assignment), the scan is equivalent to this pure accumulator recursion.
The comparison `p.offset < static_cast<int32_t>(ilOffset)` casts the query
to `int32_t`; the comparison `p.offset == ilOffset` converts the point's
offset to `ULONG32`. -/
def nearestLoop (ilOffset : Nat) : List SRSequencePoint → SRSequencePoint → SRSequencePoint
  | [], acc => acc
  | p :: rest, acc =>
    if p.offset < toInt32 ilOffset then nearestLoop ilOffset rest p
    else if toUInt32 p.offset = ilOffset then p
    else acc

/-- The last element of the list whose `offset` is strictly below `q`
(scanning gives the final such element).  This is the "most recent
predecessor" of the specification's nearest-at-or-before rule. -/
def lastLt (q : Int) : List SRSequencePoint → Option SRSequencePoint
  | [] => none
  | p :: rest =>
    match lastLt q rest with
    | some r => some r
    | none => if p.offset < q then some p else none

/-- The point selected by the specification's asymmetric
nearest-at-or-before rule, stated exactly as the specification words it: an
exact `offset` match wins; otherwise the last point whose `offset` is
strictly less than the query; otherwise the first point of the table.  This
definition follows the specification's words and is compared against the
source-derived `nearestLoop`. -/
def specSelectedPoint (q : Nat) (points : List SRSequencePoint) : Option SRSequencePoint :=
  match points.find? (fun p => decide (p.offset = (q : Int))) with
  | some p => some p
  | none =>
    match lastLt (q : Int) points with
    | some p => some p
    | none => points.head?

theorem lastLt_eq_none (q : Int) (l : List SRSequencePoint)
    (h : ∀ x ∈ l, ¬ x.offset < q) : lastLt q l = none := by
  induction l with
  | nil => rfl
  | cons p rest ih =>
    have hrest : lastLt q rest = none := ih (fun x hx => h x (List.mem_cons_of_mem p hx))
    simp [lastLt, hrest, h p (List.mem_cons_self p rest)]

/-- On an ascending table whose offsets are in int32 range and for a query
below `2 ^ 31`, the source's scan with an arbitrary start accumulator
computes: the first exact match if one exists, else the last strict
predecessor, else the accumulator. -/
theorem nearestLoop_eq_specSelect (q : Nat) (hq : q < 2147483648)
    (l : List SRSequencePoint)
    (hrange : ∀ p ∈ l, -2147483648 ≤ p.offset ∧ p.offset < 2147483648)
    (hsorted : l.Pairwise (fun a b => a.offset ≤ b.offset)) :
    ∀ acc : SRSequencePoint,
      nearestLoop q l acc =
        (match l.find? (fun p => decide (p.offset = (q : Int))) with
         | some e => e
         | none => (lastLt (q : Int) l).getD acc) := by
  induction l with
  | nil => intro acc; simp [nearestLoop, lastLt]
  | cons p rest ih =>
    intro acc
    have hp := hrange p (List.mem_cons_self p rest)
    have hrestRange : ∀ x ∈ rest, -2147483648 ≤ x.offset ∧ x.offset < 2147483648 :=
      fun x hx => hrange x (List.mem_cons_of_mem p hx)
    have hpair := List.pairwise_cons.mp hsorted
    have hq32 : toInt32 q = (q : Int) := toInt32_of_lt q hq
    by_cases hlt : p.offset < (q : Int)
    · have hne : ¬ (p.offset = (q : Int)) := by omega
      have hfind : (p :: rest).find? (fun x => decide (x.offset = (q : Int)))
          = rest.find? (fun x => decide (x.offset = (q : Int))) := by
        simp [List.find?_cons, hne]
      have hloop : nearestLoop q (p :: rest) acc = nearestLoop q rest p := by
        simp [nearestLoop, hq32, hlt]
      rw [hloop, ih hrestRange hpair.2 p, hfind]
      cases hfr : rest.find? (fun x => decide (x.offset = (q : Int))) with
      | some e => simp
      | none =>
        cases hll : lastLt (q : Int) rest with
        | some r => simp [lastLt, hll]
        | none => simp [lastLt, hll, hlt]
    · by_cases heq : p.offset = (q : Int)
      · have hEq32 : toUInt32 p.offset = q :=
          (toUInt32_eq_iff p.offset q hp.1 hp.2 hq).mpr heq
        have hloop : nearestLoop q (p :: rest) acc = p := by
          simp [nearestLoop, hq32, hlt, hEq32]
        have hfind : (p :: rest).find? (fun x => decide (x.offset = (q : Int))) = some p := by
          simp [List.find?_cons, heq]
        rw [hloop, hfind]
      · have hgt : (q : Int) < p.offset := by omega
        have hNe32 : ¬ (toUInt32 p.offset = q) := by
          intro hc
          exact heq ((toUInt32_eq_iff p.offset q hp.1 hp.2 hq).mp hc)
        have hloop : nearestLoop q (p :: rest) acc = acc := by
          simp [nearestLoop, hq32, hlt, hNe32]
        have hallGt : ∀ x ∈ p :: rest, (q : Int) < x.offset := by
          intro x hx
          rcases List.mem_cons.mp hx with rfl | hx'
          · exact hgt
          · exact lt_of_lt_of_le hgt (hpair.1 x hx')
        have hfind : (p :: rest).find? (fun x => decide (x.offset = (q : Int))) = none := by
          rw [List.find?_eq_none]
          intro x hx
          have := hallGt x hx
          simp
          omega
        have hll : lastLt (q : Int) (p :: rest) = none :=
          lastLt_eq_none (q : Int) (p :: rest)
            (fun x hx => by have := hallGt x hx; omega)
        rw [hloop, hfind, hll]
        rfl

/-- The 128-bit module version identifier read by `GetScopeProps` (`GUID`
with `Data1 : u32`, `Data2, Data3 : u16`, `Data4 : u8[8]`). -/
structure GUID where
  data1 : Nat
  data2 : Nat
  data3 : Nat
  data4_0 : Nat
  data4_1 : Nat
  data4_2 : Nat
  data4_3 : Nat
  data4_4 : Nat
  data4_5 : Nat
  data4_6 : Nat
  data4_7 : Nat
deriving DecidableEq, Repr

/-- The view of an `ICorDebugModule` handle consumed by the sources.  Each
field records the outcome of the corresponding interface call on this handle
(`none` = the call fails).  `metaDataImport` covers the
`GetMetaDataInterface` call together with the `QueryInterface` to
`IMetaDataImport`; `process` merges `GetProcess` followed by `GetID` into the
resulting process id. -/
structure CorModule where
  name : Option String
  process : Option Nat
  metaDataImport : Option Unit
  scopeMvid : Option GUID
  baseAddress : Option Nat
  size : Option Nat
  isDynamic : Option Bool
  isInMemory : Option Bool
deriving DecidableEq, Repr

/-- The view of an `ICorDebugFunction` handle: its owning module and the
size of its IL code (`GetILCode` followed by `ICorDebugCode::GetSize`,
merged; `none` = either call fails). -/
structure CorFunction where
  module : Option CorModule
  getILCodeSize : Option Nat
deriving DecidableEq, Repr

/-- The view of an `ICorDebugFrame` handle: outcome of `GetFunctionToken`,
`GetFunction`, the `QueryInterface` to `ICorDebugILFrame`, and
`ICorDebugILFrame::GetIP` (the IL offset; the mapping-result out-parameter is
never read by the sources and is omitted). -/
structure CorFrame where
  functionToken : Option Nat
  function : Option CorFunction
  ilFrameQI : Option Unit
  getIP : Option Nat
deriving DecidableEq, Repr

/-- The view of an `ICorDebugThread`: `GetActiveFrame` can fail (`none`),
or succeed returning a null frame (`some none`), or return a frame. -/
structure CorThread where
  activeFrame : Option (Option CorFrame)
deriving DecidableEq, Repr

/-- The query interface of a `SymbolReader` attached to a module, as consumed
by the location-resolution functions of `Modules`.  Each field models the
observable outcome of the corresponding `SymbolReader` method (the per-record
handle check plus the managed delegate call): `none` = the method returns a
failure HRESULT. -/
structure SymbolsProvider where
  resolveSequencePoint : String → Nat → Nat → Option (Nat × Nat)
  getLineByILOffset : Nat → Nat → Option (Nat × String)
  getStepRangesFromIP : Nat → Nat → Option (Nat × Nat)
  getSequencePoints : Nat → Option (List SRSequencePoint)

/-- `Modules::ModuleInfo`: the value type of the registry map
`m_modulesInfo`, holding the record's symbol reader (seen here through its
query interface) and the borrowed module handle. -/
structure ModuleInfo where
  symbols : SymbolsProvider
  module : CorModule

/-- Exact-key lookup in the registry map, modelling `std::map::find` on the
association list representation (keys are `CORDB_ADDRESS` values). -/
def mapFind {α : Type} (k : Nat) : List (Nat × α) → Option α
  | [] => none
  | (k0, v) :: rest => if k = k0 then some v else mapFind k rest

/-- `std::map::insert` on the sorted association-list representation: the
pair is placed at its ordered position, and if the key is already present the
map is left unchanged (the insertion is a silent no-op, exactly as
`std::map::insert` with a duplicate key). -/
def mapInsert {α : Type} (k : Nat) (v : α) : List (Nat × α) → List (Nat × α)
  | [] => [(k, v)]
  | (k0, v0) :: rest =>
    if k < k0 then (k, v) :: (k0, v0) :: rest
    else if k = k0 then (k0, v0) :: rest
    else (k0, v0) :: mapInsert k v rest

/-- The Tizen `/proc/self/` path rewriting marker of
`Modules::GetModuleFileName`. -/
def selfPfx : String := "/proc/self/"

/-- `Modules::GetModuleFileName`: the module's name, with `/proc/self/`
rewritten to `/proc/<pid>/`; any interface failure produces the empty
string. -/
def Modules.GetModuleFileName (m : CorModule) : String :=
  match m.name with
  | none => ""
  | some moduleName =>
    if moduleName.data.take selfPfx.length ≠ selfPfx.data then moduleName
    else
      match m.process with
      | none => ""
      | some pid =>
        "/proc/" ++ toString pid ++ "/" ++
          String.mk (moduleName.data.drop selfPfx.length)

/-- The value returned by `Modules::GetLocationInAny` on success: the
resolved IL offset and method token (from `ResolveSequencePoint`), the
canonical file name (from `GetLineByILOffset`), and the winning module. -/
structure LocResult where
  ilOffset : Nat
  methodToken : Nat
  fullname : String
  module : CorModule

/-- `Modules::GetLocationInAny`: scan the registry in iteration order; for
each record, a failing `GetBaseAddress` aborts the whole call (`IfFailRet`),
a failing `ResolveSequencePoint` or `GetLineByILOffset` skips to the next
record (`continue`), and the first record for which both provider calls
succeed yields the result. -/
def Modules.GetLocationInAny (reg : List (Nat × ModuleInfo)) (filename : String)
    (linenum : Nat) : Option LocResult :=
  match reg with
  | [] => none
  | (_, info) :: rest =>
    match info.module.baseAddress with
    | none => none
    | some modAddress =>
      match info.symbols.resolveSequencePoint filename linenum modAddress with
      | none => Modules.GetLocationInAny rest filename linenum
      | some (methodToken, ilOffset) =>
        match info.symbols.getLineByILOffset methodToken ilOffset with
        | none => Modules.GetLocationInAny rest filename linenum
        | some (_, fname) => some ⟨ilOffset, methodToken, fname, info.module⟩

/-- `Modules::GetFrameILAndSequencePoint`: obtain the frame's method token,
function, module, metadata and IL offset; find the module's record; fetch the
line for the offset (for the document name) and the sequence-point table; an
empty table fails; otherwise the nearest-at-or-before scan selects the
reported point.  Returns the IL offset and the written `SequencePoint`. -/
def Modules.GetFrameILAndSequencePoint (reg : List (Nat × ModuleInfo))
    (frame : CorFrame) : Option (Nat × ModSequencePoint) := do
  let methodToken ← frame.functionToken
  let func ← frame.function
  let md ← func.module
  let _ ← md.metaDataImport
  let _ ← frame.ilFrameQI
  let ilOffset ← frame.getIP
  let modAddress ← md.baseAddress
  let info ← mapFind modAddress reg
  let (_, name) ← info.symbols.getLineByILOffset methodToken ilOffset
  let points ← info.symbols.getSequencePoints methodToken
  match points with
  | [] => none
  | p0 :: _ =>
    let n := nearestLoop ilOffset points p0
    some (ilOffset, ⟨n.startLine, n.endLine, n.startColumn, n.endColumn, n.offset, name⟩)

/-- `COR_DEBUG_STEP_RANGE`: half-open IL instruction-offset interval. -/
structure StepRange where
  startOffset : Nat
  endOffset : Nat
deriving DecidableEq, Repr

/-- `Modules::GetStepRangeFromCurrentIP`: obtain the active frame (a null
frame fails), its method token, function, module and IL offset; find the
module's record; ask the provider for the step range; if the provider's
range is zero-width, widen its end to the method's total IL code size. -/
def Modules.GetStepRangeFromCurrentIP (reg : List (Nat × ModuleInfo))
    (thread : CorThread) : Option StepRange := do
  let frameOpt ← thread.activeFrame
  match frameOpt with
  | none => none
  | some frame => do
    let methodToken ← frame.functionToken
    let func ← frame.function
    let md ← func.module
    let _ ← frame.ilFrameQI
    let nOffset ← frame.getIP
    let modAddress ← md.baseAddress
    let info ← mapFind modAddress reg
    let (ilStartOffset, ilEndOffset) ← info.symbols.getStepRangesFromIP nOffset methodToken
    if ilStartOffset = ilEndOffset then do
      let codeSize ← func.getILCodeSize
      some ⟨ilStartOffset, codeSize⟩
    else
      some ⟨ilStartOffset, ilEndOffset⟩

/-- `module.symbolStatus` values (`SymbolsLoaded`, `SymbolsNotFound`,
`SymbolsSkipped`). -/
inductive SymbolStatus where
  | SymbolsLoaded
  | SymbolsNotFound
  | SymbolsSkipped
deriving DecidableEq, Repr

/-- The mutable state of one `SymbolReader` instance: its opaque managed
handle (`m_symbolReaderHandle`, `0` = none), plus an observation flag
recording whether `LoadSymbols` was invoked on this instance (used to state
that rejected modules trigger no symbol-load attempt). -/
structure SymbolReaderState where
  handle : Nat
  loadAttempted : Bool
deriving DecidableEq, Repr

/-- A freshly constructed `SymbolReader` (`new SymbolReader()`): no handle,
no load attempted. -/
def SymbolReader.new : SymbolReaderState := ⟨0, false⟩

/-- `SymbolReader::SymbolsLoaded`.  Modelled from the spec: declared in
`symbolreader.h` (not under `src/`); reports whether a symbol provider was
successfully attached, which in `symbolreader.cpp` is witnessed by a nonzero
`m_symbolReaderHandle`. -/
def SymbolReaderState.SymbolsLoaded (r : SymbolReaderState) : Bool := r.handle != 0

/-- The process-wide symbol-reader environment as seen by a single
`LoadSymbols` call: `loadSymbolsForModuleDelegate` is `some d` when the
managed delegate is available (already wired, or wired by a successful
`PrepareSymbolReader`), and `none` when the delegate is absent and
preparation fails.  The delegate receives the module name (null for
in-memory PEs), the file-layout flag, the PE address and size, and returns
the managed reader handle (`0` = failure); the constant zero in-memory-PDB
arguments of the source are omitted. -/
structure SymEnv where
  loadSymbolsForModuleDelegate : Option (Option String → Bool → Nat → Nat → Nat)

/-- `SymbolReader::LoadSymbolsForPortablePDB`: ensure the delegate is
available, pass a null module name for in-memory PEs, store the handle the
delegate returns (before the zero check, as the source does), and fail iff
the handle is zero. -/
def SymbolReader.LoadSymbolsForPortablePDB (env : SymEnv) (modulePath : String)
    (isInMemory isFileLayout : Bool) (peAddress peSize : Nat)
    (r : SymbolReaderState) : Option Unit × SymbolReaderState :=
  match env.loadSymbolsForModuleDelegate with
  | none => (none, r)
  | some d =>
    let szModuleName : Option String :=
      if ¬ isInMemory ∧ modulePath ≠ "" then some modulePath else none
    let h := d szModuleName isFileLayout peAddress peSize
    let r1 : SymbolReaderState := { r with handle := h }
    (if h = 0 then none else some (), r1)

/-- `SymbolReader::LoadSymbols`: query `IsDynamic` and `IsInMemory`; a
dynamic module fails outright; otherwise load a portable PDB using the
module's image address and size, with `isInMemory` doubling as the
file-layout flag. -/
def SymbolReader.LoadSymbols (env : SymEnv) (m : CorModule)
    (r : SymbolReaderState) : Option Unit × SymbolReaderState :=
  let r := { r with loadAttempted := true }
  match m.isDynamic with
  | none => (none, r)
  | some isDynamic =>
    match m.isInMemory with
    | none => (none, r)
    | some isInMemory =>
      if isDynamic then (none, r)
      else
        match m.baseAddress with
        | none => (none, r)
        | some peAddress =>
          match m.size with
          | none => (none, r)
          | some peSize =>
            SymbolReader.LoadSymbolsForPortablePDB env (Modules.GetModuleFileName m)
              isInMemory isInMemory peAddress peSize r

/-- The lowercase hexadecimal digit character for a value below 16 (the
digits emitted by `std::hex` with default formatting). -/
def hexDigitChar (n : Nat) : Char :=
  if n < 10 then Char.ofNat (48 + n) else Char.ofNat (87 + n)

/-- Digit recursion behind `hexDigits`, driven by a structural fuel bound so
that concrete instances reduce in the kernel; `fuel > n` always suffices
because each step divides `n` by 16. -/
def hexDigitsF : Nat → Nat → List Char
  | 0, _ => []
  | fuel + 1, n =>
    if n < 16 then [hexDigitChar n]
    else hexDigitsF fuel (n / 16) ++ [hexDigitChar (n % 16)]

/-- The lowercase hexadecimal digit string of a natural number, most
significant digit first (one digit `'0'` for zero), as printed by
`std::ostream` under `std::hex`. -/
def hexDigits (n : Nat) : List Char := hexDigitsF (n + 1) n

/-- `std::setfill('0') << std::setw(w)` applied to the hexadecimal digits of
`n`: left-pad with `'0'` to a minimum width of `w`. -/
def toHexPad (n w : Nat) : List Char :=
  List.replicate (w - (hexDigits n).length) '0' ++ hexDigits n

/-- The character stream built by `Modules::GetModuleId` for a module
version identifier: `Data1` to width 8, `Data2` and `Data3` to width 4, the
first two `Data4` bytes to width 2 each, a hyphen, then the remaining six
`Data4` bytes to width 2 each.  Each byte is masked with `0xFF`
(`& 0xFF` in the source), modelled as reduction modulo 256. -/
def mvidChars (g : GUID) : List Char :=
  toHexPad g.data1 8 ++ ['-'] ++ toHexPad g.data2 4 ++ ['-'] ++ toHexPad g.data3 4 ++ ['-'] ++
  (toHexPad (g.data4_0 % 256) 2 ++ toHexPad (g.data4_1 % 256) 2) ++ ['-'] ++
  (toHexPad (g.data4_2 % 256) 2 ++ toHexPad (g.data4_3 % 256) 2 ++
   toHexPad (g.data4_4 % 256) 2 ++ toHexPad (g.data4_5 % 256) 2 ++
   toHexPad (g.data4_6 % 256) 2 ++ toHexPad (g.data4_7 % 256) 2)

/-- `Modules::GetModuleId`: obtain the metadata interface, read the module
version identifier with `GetScopeProps`, and format it as the canonical
hyphenated lowercase hexadecimal string. -/
def Modules.GetModuleId (m : CorModule) : Option String := do
  let _ ← m.metaDataImport
  let mvid ← m.scopeMvid
  some (String.mk (mvidChars mvid))

/-- `GetFileName`.  Modelled from the spec: defined in a utility translation
unit not under `src/`; returns the file name component of a path (the part
after the last separator), computed as the longest separator-free suffix. -/
def GetFileName (path : String) : String :=
  String.mk ((path.data.reverse.takeWhile (fun c => c ≠ '/')).reverse)

/-- The registry entry stored by `Modules::TryLoadModuleSymbols`: the
module's symbol reader (its state, as built during registration) and the
borrowed module handle. -/
structure RegEntry where
  reader : SymbolReaderState
  module : CorModule
deriving DecidableEq, Repr

/-- The `Module` record filled in by `Modules::TryLoadModuleSymbols` (named
`ModuleRecord` here because `Module` is taken by Mathlib). -/
structure ModuleRecord where
  path : String
  name : String
  symbolStatus : SymbolStatus
  id : String
  baseAddress : Nat
  size : Nat
deriving DecidableEq, Repr

/-- `Modules::TryLoadModuleSymbols`: obtain the metadata interface, compute
path and name, construct a fresh `SymbolReader`; if the
`ShouldLoadSymbolsForModule` predicate accepts the path, attempt
`LoadSymbols` (ignoring its HRESULT) and set `symbolStatus` from
`SymbolsLoaded()`, otherwise mark the module skipped without any load
attempt; compute the module id, base address and size, and insert the
record into the registry keyed by base address.  The JMC calls of the source
mutate only the debuggee and are omitted.  `ShouldLoadSymbolsForModule` is
defined outside the excerpted sources and is taken as an explicit predicate
argument. -/
def Modules.TryLoadModuleSymbols (shouldLoadSymbolsForModule : String → Bool)
    (env : SymEnv) (pModule : CorModule) (reg : List (Nat × RegEntry)) :
    Option (ModuleRecord × List (Nat × RegEntry)) := do
  let _ ← pModule.metaDataImport
  let path := Modules.GetModuleFileName pModule
  let name := GetFileName path
  let reader1 :=
    if shouldLoadSymbolsForModule path then
      (SymbolReader.LoadSymbols env pModule SymbolReader.new).2
    else SymbolReader.new
  let status :=
    if shouldLoadSymbolsForModule path then
      (if reader1.SymbolsLoaded then SymbolStatus.SymbolsLoaded
       else SymbolStatus.SymbolsNotFound)
    else SymbolStatus.SymbolsSkipped
  let id ← Modules.GetModuleId pModule
  let baseAddress ← pModule.baseAddress
  let size ← pModule.size
  some (⟨path, name, status, id, baseAddress, size⟩,
        mapInsert baseAddress ⟨reader1, pModule⟩ reg)

/-- Success/failure HRESULT outcomes (`S_OK` / `E_FAIL`-class codes); the
sources never branch on the particular failure code. -/
inductive HR where
  | sOK
  | eFail
deriving DecidableEq, Repr

/-- The process-wide state behind `SymbolReader::PrepareSymbolReader`: the
`attemptedSymbolReaderPreparation` latch, whether the delegates ended up
wired (preparation succeeded), and an observation counter of how many times
the initialization body (everything after the latch is set) actually ran. -/
structure PrepState where
  attempted : Bool
  prepared : Bool
  workCount : Nat
deriving DecidableEq, Repr

/-- Process start: latch clear, nothing prepared, no work performed. -/
def PrepState.init : PrepState := ⟨false, false, 0⟩

/-- `SymbolReader::PrepareSymbolReader`: if the latch is already set, return
failure immediately without touching anything; otherwise set the latch and
run the initialization body, whose success or failure is determined by the
process environment (library loading, runtime hosting, delegate creation),
abstracted as the `outcome` flag. -/
def SymbolReader.PrepareSymbolReader (outcome : Bool) (s : PrepState) : HR × PrepState :=
  if s.attempted then (HR.eFail, s)
  else
    let s1 : PrepState :=
      { attempted := true, prepared := outcome, workCount := s.workCount + 1 }
    (if outcome then HR.sOK else HR.eFail, s1)

/-- Run a sequence of `PrepareSymbolReader` calls, each with its own
environment outcome, collecting the returned HRESULTs. -/
def runPrep : List Bool → PrepState → List HR × PrepState
  | [], s => ([], s)
  | o :: os, s =>
    let r := SymbolReader.PrepareSymbolReader o s
    let rs := runPrep os r.2
    (r.1 :: rs.1, rs.2)

/-- `SymbolReader::HiddenLine`: the hidden-line marker `0xfeefee`. -/
def SymbolReader.HiddenLine : Nat := 0xfeefee

/-- Modelled from the spec: the managed `GetLineByILOffset` delegate
(`SOS.SymbolReader`, a repository component not under `src/`).  Per the
source comment "Source lines with 0xFEEFEE markers are filtered out on the
managed side" and the spec's provider contract, the delegate resolves the
method token and IL offset against its line mapping (`lines`) and reports
failure whenever the resolved line is the hidden-line marker. -/
def getLineByILOffsetDelegateModel (lines : Nat → Nat → Option (Nat × String))
    (methodToken ilOffset : Nat) : Option (Nat × String) :=
  match lines methodToken ilOffset with
  | none => none
  | some (line, f) =>
    if line = SymbolReader.HiddenLine then none else some (line, f)

/-- `SymbolReader::GetLineByILOffset`: with no managed handle the call
fails; otherwise it invokes the managed delegate and additionally fails when
the reported line number is `0`.  The BSTR filename buffer allocation is
modelled as succeeding. -/
def SymbolReader.GetLineByILOffset (handle : Nat)
    (lines : Nat → Nat → Option (Nat × String))
    (methodToken ilOffset : Nat) : Option (Nat × String) :=
  if handle ≠ 0 then
    match getLineByILOffsetDelegateModel lines methodToken ilOffset with
    | none => none
    | some (line, f) => if line = 0 then none else some (line, f)
  else none

theorem mapFind_mapInsert_fresh {α : Type} (k : Nat) (v : α) (l : List (Nat × α))
    (h : mapFind k l = none) : mapFind k (mapInsert k v l) = some v := by
  induction l with
  | nil => simp [mapInsert, mapFind]
  | cons e rest ih =>
    obtain ⟨k0, v0⟩ := e
    by_cases hk : k = k0
    · simp [mapFind, hk] at h
    · simp only [mapFind, if_neg hk] at h
      by_cases hlt : k < k0
      · simp [mapInsert, hlt, mapFind]
      · simp [mapInsert, hlt, hk, mapFind, ih h]

theorem mapFind_some_mem_keys {α : Type} (k : Nat) (w : α) (l : List (Nat × α))
    (h : mapFind k l = some w) : k ∈ l.map Prod.fst := by
  induction l with
  | nil => simp [mapFind] at h
  | cons e rest ih =>
    obtain ⟨k0, v0⟩ := e
    by_cases hk : k = k0
    · simp [hk]
    · simp only [mapFind, if_neg hk] at h
      simp [ih h]


theorem mapInsert_of_find_some {α : Type} (k : Nat) (v w : α) (l : List (Nat × α))
    (hsorted : (l.map Prod.fst).Pairwise (· < ·))
    (h : mapFind k l = some w) : mapInsert k v l = l := by
  induction l with
  | nil => simp [mapFind] at h
  | cons e rest ih =>
    obtain ⟨k0, v0⟩ := e
    have hsorted' : (k0 :: rest.map Prod.fst).Pairwise (· < ·) := by
      simpa using hsorted
    have hpair := List.pairwise_cons.mp hsorted'
    by_cases hk : k = k0
    · have hnlt : ¬ k < k0 := by omega
      simp [mapInsert, hnlt, hk]
    · simp only [mapFind, if_neg hk] at h
      have hmem : k ∈ rest.map Prod.fst := mapFind_some_mem_keys k w rest h
      have hk0k : k0 < k := hpair.1 k hmem
      have h1 : ¬ k < k0 := by omega
      simp [mapInsert, h1, hk, ih hpair.2 h]

theorem mem_keys_mapInsert {α : Type} (k : Nat) (v : α) (l : List (Nat × α)) (x : Nat)
    (hx : x ∈ (mapInsert k v l).map Prod.fst) : x = k ∨ x ∈ l.map Prod.fst := by
  induction l with
  | nil =>
    simp [mapInsert] at hx
    exact Or.inl hx
  | cons e rest ih =>
    obtain ⟨k0, v0⟩ := e
    by_cases hlt : k < k0
    · simp only [mapInsert, if_pos hlt, List.map_cons, List.mem_cons] at hx
      rcases hx with rfl | hx
      · exact Or.inl rfl
      · exact Or.inr (by simpa using hx)
    · by_cases hk : k = k0
      · simp only [mapInsert, if_neg hlt, if_pos hk] at hx
        exact Or.inr (by simpa using hx)
      · simp only [mapInsert, if_neg hlt, if_neg hk, List.map_cons, List.mem_cons] at hx
        rcases hx with rfl | hx
        · exact Or.inr (by simp)
        · rcases ih hx with h | h
          · exact Or.inl h
          · exact Or.inr (by simp [h])

theorem mapInsert_keys_sorted {α : Type} (k : Nat) (v : α) (l : List (Nat × α))
    (hsorted : (l.map Prod.fst).Pairwise (· < ·)) :
    ((mapInsert k v l).map Prod.fst).Pairwise (· < ·) := by
  induction l with
  | nil => simp [mapInsert]
  | cons e rest ih =>
    obtain ⟨k0, v0⟩ := e
    have hsorted' : (k0 :: rest.map Prod.fst).Pairwise (· < ·) := by
      simpa using hsorted
    have hpair := List.pairwise_cons.mp hsorted'
    by_cases hlt : k < k0
    · simp only [mapInsert, if_pos hlt, List.map_cons]
      refine List.pairwise_cons.mpr ⟨?_, hsorted'⟩
      intro x hx
      rcases List.mem_cons.mp hx with rfl | hx'
      · exact hlt
      · exact lt_trans hlt (hpair.1 x hx')
    · by_cases hk : k = k0
      · simpa [mapInsert, hlt, hk] using hsorted
      · have hk0k : k0 < k := by omega
        simp only [mapInsert, if_neg hlt, if_neg hk, List.map_cons]
        refine List.pairwise_cons.mpr ⟨?_, ih hpair.2⟩
        intro x hx
        rcases mem_keys_mapInsert k v rest x hx with rfl | hx'
        · exact hk0k
        · exact hpair.1 x hx'

/-- C1 (amended): for every frame pipeline that reaches the scan, a
non-empty sequence-point table ordered by ascending offset with int32
offsets, and a query IL offset below `2 ^ 31` (a nonnegative `int32_t`, the
range the scan's `static_cast<int32_t>` comparison preserves),
`GetFrameILAndSequencePoint` returns exactly the point selected by the
asymmetric nearest-at-or-before rule: an exact offset match wins, otherwise
the last point whose offset is strictly less than the query, otherwise the
first point of the table; the reported document is the `GetLineByILOffset`
file name. -/
theorem getFrameILAndSequencePoint_nearest_at_or_before
    (reg : List (Nat × ModuleInfo)) (frame : CorFrame)
    (token : Nat) (func : CorFunction) (md : CorModule) (q addr ln : Nat)
    (docName : String) (info : ModuleInfo) (points : List SRSequencePoint)
    (p0 : SRSequencePoint) (tl : List SRSequencePoint)
    (h1 : frame.functionToken = some token)
    (h2 : frame.function = some func)
    (h3 : func.module = some md)
    (h4 : md.metaDataImport = some ())
    (h5 : frame.ilFrameQI = some ())
    (h6 : frame.getIP = some q)
    (h7 : md.baseAddress = some addr)
    (h8 : mapFind addr reg = some info)
    (h9 : info.symbols.getLineByILOffset token q = some (ln, docName))
    (h10 : info.symbols.getSequencePoints token = some points)
    (hne : points = p0 :: tl)
    (hsorted : points.Pairwise (fun a b => a.offset ≤ b.offset))
    (hrange : ∀ p ∈ points, -2147483648 ≤ p.offset ∧ p.offset < 2147483648)
    (hq : q < 2147483648) :
    ∃ sel, specSelectedPoint q points = some sel ∧
      Modules.GetFrameILAndSequencePoint reg frame =
        some (q, ⟨sel.startLine, sel.endLine, sel.startColumn, sel.endColumn,
                  sel.offset, docName⟩) := by
  subst hne
  have hloop := nearestLoop_eq_specSelect q hq (p0 :: tl) hrange hsorted p0
  have hsel : ∃ sel, specSelectedPoint q (p0 :: tl) = some sel ∧
      nearestLoop q (p0 :: tl) p0 = sel := by
    rw [hloop]
    cases hfind : (p0 :: tl).find? (fun p => decide (p.offset = (q : Int))) with
    | some e => exact ⟨e, by simp [specSelectedPoint, hfind], rfl⟩
    | none =>
      cases hll : lastLt (q : Int) (p0 :: tl) with
      | some r => exact ⟨r, by simp [specSelectedPoint, hfind, hll], by simp [hll]⟩
      | none => exact ⟨p0, by simp [specSelectedPoint, hfind, hll], by simp [hll]⟩
  obtain ⟨sel, hspec, hval⟩ := hsel
  refine ⟨sel, hspec, ?_⟩
  simp [Modules.GetFrameILAndSequencePoint, h1, h2, h3, h4, h5, h6, h7, h8, h9, h10, hval]

/-- Concrete sequence-point table at offsets 0, 10, 20 (the specification's
tie-break example). -/
def c1Points : List SRSequencePoint :=
  [⟨0, 1, 1, 1, 5⟩, ⟨10, 2, 2, 1, 5⟩, ⟨20, 3, 3, 1, 5⟩]

/-- Concrete provider for the C1 witness. -/
def c1Provider : SymbolsProvider where
  resolveSequencePoint := fun _ _ _ => none
  getLineByILOffset := fun _ _ => some (2, "a.cs")
  getStepRangesFromIP := fun _ _ => none
  getSequencePoints := fun _ => some c1Points

/-- Concrete module handle for the C1 witness. -/
def c1Module : CorModule :=
  ⟨some "m.dll", none, some (), none, some 100, some 64, some false, some false⟩

/-- Concrete registry for the C1 witness. -/
def c1Reg : List (Nat × ModuleInfo) := [(100, ⟨c1Provider, c1Module⟩)]

/-- Concrete frame (IL offset 15) for the C1 witness. -/
def c1Frame : CorFrame := ⟨some 7, some ⟨some c1Module, some 64⟩, some (), some 15⟩

/-- C1 witness: at query offset 15 over the table [0, 10, 20] the selected
point exists and is reported with the resolved document name. -/
theorem getFrameILAndSequencePoint_nearest_witness :
    ∃ sel, specSelectedPoint 15 c1Points = some sel ∧
      Modules.GetFrameILAndSequencePoint c1Reg c1Frame =
        some (15, ⟨sel.startLine, sel.endLine, sel.startColumn, sel.endColumn,
                   sel.offset, "a.cs"⟩) :=
  getFrameILAndSequencePoint_nearest_at_or_before c1Reg c1Frame
    7 ⟨some c1Module, some 64⟩ c1Module 15 100 2 "a.cs" ⟨c1Provider, c1Module⟩
    c1Points ⟨0, 1, 1, 1, 5⟩ [⟨10, 2, 2, 1, 5⟩, ⟨20, 3, 3, 1, 5⟩]
    rfl rfl rfl rfl rfl rfl rfl rfl rfl rfl rfl
    (by decide) (by decide) (by decide)

/-- Sequence-point table for the C1 counterexample: ascending offsets 0
and 10. -/
def c1xPoints : List SRSequencePoint := [⟨0, 1, 1, 1, 5⟩, ⟨10, 2, 2, 1, 5⟩]

/-- Concrete provider for the C1 counterexample. -/
def c1xProvider : SymbolsProvider where
  resolveSequencePoint := fun _ _ _ => none
  getLineByILOffset := fun _ _ => some (2, "a.cs")
  getStepRangesFromIP := fun _ _ => none
  getSequencePoints := fun _ => some c1xPoints

/-- Concrete module handle for the C1 counterexample. -/
def c1xModule : CorModule :=
  ⟨some "m.dll", none, some (), none, some 100, some 64, some false, some false⟩

/-- Concrete registry for the C1 counterexample. -/
def c1xReg : List (Nat × ModuleInfo) := [(100, ⟨c1xProvider, c1xModule⟩)]

/-- Concrete frame whose IL offset is `2 ^ 31` (a legal `ULONG32`) for the
C1 counterexample. -/
def c1xFrame : CorFrame :=
  ⟨some 7, some ⟨some c1xModule, some 64⟩, some (), some 2147483648⟩

/-- C1 counterexample: on the ascending table [0, 10] a query at IL offset
`2 ^ 31` has no exact match and its last strict predecessor is the point at
offset 10, so the claimed rule selects offset 10 — but the code returns the
point at offset 0, because `static_cast<int32_t>(ilOffset)` turns the query
into a negative number and the scan stops at the first point.  The claim is
therefore false for query offsets at or above `2 ^ 31`. -/
theorem getFrameILAndSequencePoint_nearest_counterexample :
    c1xPoints.Pairwise (fun a b => a.offset ≤ b.offset) ∧
    (Modules.GetFrameILAndSequencePoint c1xReg c1xFrame).map (fun r => r.2.offset)
      = some 0 ∧
    (specSelectedPoint 2147483648 c1xPoints).map (fun p => p.offset) = some 10 := by
  refine ⟨by decide, by rfl, by rfl⟩

/-- Concrete provider with an empty sequence-point table for the C10
witness. -/
def c10Provider : SymbolsProvider where
  resolveSequencePoint := fun _ _ _ => none
  getLineByILOffset := fun _ _ => some (2, "a.cs")
  getStepRangesFromIP := fun _ _ => none
  getSequencePoints := fun _ => some []

/-- Concrete module handle for the C10 witness. -/
def c10Module : CorModule :=
  ⟨some "m.dll", none, some (), none, some 100, some 64, some false, some false⟩

/-- Concrete registry for the C10 witness. -/
def c10Reg : List (Nat × ModuleInfo) := [(100, ⟨c10Provider, c10Module⟩)]

/-- Concrete frame for the C10 witness. -/
def c10Frame : CorFrame := ⟨some 7, some ⟨some c10Module, some 64⟩, some (), some 15⟩

/-- C10: when the provider returns an empty sequence-point table for the
frame's method, `GetFrameILAndSequencePoint` fails and writes no sequence
point, even though every preceding step of the pipeline (line lookup
included) succeeded; the first-point fallback never applies to an empty
table. -/
theorem getFrameILAndSequencePoint_empty_fails
    (reg : List (Nat × ModuleInfo)) (frame : CorFrame)
    (token : Nat) (func : CorFunction) (md : CorModule) (q addr ln : Nat)
    (docName : String) (info : ModuleInfo)
    (h1 : frame.functionToken = some token)
    (h2 : frame.function = some func)
    (h3 : func.module = some md)
    (h4 : md.metaDataImport = some ())
    (h5 : frame.ilFrameQI = some ())
    (h6 : frame.getIP = some q)
    (h7 : md.baseAddress = some addr)
    (h8 : mapFind addr reg = some info)
    (h9 : info.symbols.getLineByILOffset token q = some (ln, docName))
    (h10 : info.symbols.getSequencePoints token = some []) :
    Modules.GetFrameILAndSequencePoint reg frame = none := by
  simp [Modules.GetFrameILAndSequencePoint, h1, h2, h3, h4, h5, h6, h7, h8, h9, h10]

/-- C10 witness: the concrete empty-table pipeline fails. -/
theorem getFrameILAndSequencePoint_empty_fails_witness :
    Modules.GetFrameILAndSequencePoint c10Reg c10Frame = none :=
  getFrameILAndSequencePoint_empty_fails c10Reg c10Frame
    7 ⟨some c10Module, some 64⟩ c10Module 15 100 2 "a.cs" ⟨c10Provider, c10Module⟩
    rfl rfl rfl rfl rfl rfl rfl rfl rfl rfl

/-- C2: for every thread whose active-frame pipeline succeeds, if the
provider's step range is zero-width (`start = end`) the returned range keeps
the start and widens the end to the method's total IL code size; if the
provider's range has distinct endpoints it is returned unchanged. -/
theorem getStepRangeFromCurrentIP_zero_width_widening
    (reg : List (Nat × ModuleInfo)) (thread : CorThread) (frame : CorFrame)
    (func : CorFunction) (md : CorModule) (token q addr s e csize : Nat)
    (info : ModuleInfo)
    (h1 : thread.activeFrame = some (some frame))
    (h2 : frame.functionToken = some token)
    (h3 : frame.function = some func)
    (h4 : func.module = some md)
    (h5 : frame.ilFrameQI = some ())
    (h6 : frame.getIP = some q)
    (h7 : md.baseAddress = some addr)
    (h8 : mapFind addr reg = some info)
    (h9 : info.symbols.getStepRangesFromIP q token = some (s, e))
    (h10 : s = e → func.getILCodeSize = some csize) :
    (s = e → Modules.GetStepRangeFromCurrentIP reg thread = some ⟨s, csize⟩) ∧
    (s ≠ e → Modules.GetStepRangeFromCurrentIP reg thread = some ⟨s, e⟩) := by
  constructor
  · intro hse
    simp [Modules.GetStepRangeFromCurrentIP, h1, h2, h3, h4, h5, h6, h7, h8, h9,
          hse, h10 hse]
  · intro hse
    simp [Modules.GetStepRangeFromCurrentIP, h1, h2, h3, h4, h5, h6, h7, h8, h9, hse]

/-- Concrete provider returning the zero-width range [5, 5) for the C2
witness. -/
def c2Provider : SymbolsProvider where
  resolveSequencePoint := fun _ _ _ => none
  getLineByILOffset := fun _ _ => none
  getStepRangesFromIP := fun _ _ => some (5, 5)
  getSequencePoints := fun _ => none

/-- Concrete module handle for the C2 witness. -/
def c2Module : CorModule :=
  ⟨some "m.dll", none, some (), none, some 100, some 64, some false, some false⟩

/-- Concrete registry for the C2 witness. -/
def c2Reg : List (Nat × ModuleInfo) := [(100, ⟨c2Provider, c2Module⟩)]

/-- Concrete thread whose method has IL code size 100 for the C2 witness. -/
def c2Thread : CorThread :=
  ⟨some (some ⟨some 7, some ⟨some c2Module, some 100⟩, some (), some 5⟩)⟩

/-- C2 witness: the zero-width provider range [5, 5) is widened to
[5, 100) when the method's IL code size is 100. -/
theorem getStepRangeFromCurrentIP_zero_width_widening_witness :
    Modules.GetStepRangeFromCurrentIP c2Reg c2Thread = some ⟨5, 100⟩ :=
  (getStepRangeFromCurrentIP_zero_width_widening c2Reg c2Thread
      ⟨some 7, some ⟨some c2Module, some 100⟩, some (), some 5⟩
      ⟨some c2Module, some 100⟩ c2Module 7 5 100 5 5 100 ⟨c2Provider, c2Module⟩
      rfl rfl rfl rfl rfl rfl rfl rfl rfl (fun _ => rfl)).1 rfl

/-- C3: `GetLocationInAny` scans the registry in iteration order; every
earlier record whose provider fails `ResolveSequencePoint` or the follow-up
`GetLineByILOffset` is skipped (its failure is not fatal), and the first
record for which both provider calls succeed yields the overall resolution,
whatever records follow it. -/
theorem getLocationInAny_first_success
    (filename : String) (linenum : Nat)
    (pre post : List (Nat × ModuleInfo)) (k token ilOff addr ln : Nat)
    (info : ModuleInfo) (fname : String)
    (hpre : ∀ entry ∈ pre, ∃ a, entry.2.module.baseAddress = some a ∧
        (entry.2.symbols.resolveSequencePoint filename linenum a = none ∨
         ∃ t o, entry.2.symbols.resolveSequencePoint filename linenum a = some (t, o) ∧
                entry.2.symbols.getLineByILOffset t o = none))
    (haddr : info.module.baseAddress = some addr)
    (hres : info.symbols.resolveSequencePoint filename linenum addr = some (token, ilOff))
    (hline : info.symbols.getLineByILOffset token ilOff = some (ln, fname)) :
    Modules.GetLocationInAny (pre ++ (k, info) :: post) filename linenum =
      some ⟨ilOff, token, fname, info.module⟩ := by
  induction pre with
  | nil => simp [Modules.GetLocationInAny, haddr, hres, hline]
  | cons entry pre ih =>
    obtain ⟨k0, e0⟩ := entry
    obtain ⟨a, ha, hfail⟩ := hpre (k0, e0) (List.mem_cons_self _ _)
    have ha' : e0.module.baseAddress = some a := ha
    have hrest := fun x hx => hpre x (List.mem_cons_of_mem _ hx)
    rcases hfail with hnone | ⟨t, o, hsome, hlnone⟩
    · have hnone' : e0.symbols.resolveSequencePoint filename linenum a = none := hnone
      simpa [Modules.GetLocationInAny, ha', hnone'] using ih hrest
    · have hsome' : e0.symbols.resolveSequencePoint filename linenum a = some (t, o) :=
        hsome
      have hlnone' : e0.symbols.getLineByILOffset t o = none := hlnone
      simpa [Modules.GetLocationInAny, ha', hsome', hlnone'] using ih hrest

/-- First module of the C3 witness: its provider cannot resolve the line. -/
def c3Info1 : ModuleInfo where
  symbols :=
    { resolveSequencePoint := fun _ _ _ => none
      getLineByILOffset := fun _ _ => none
      getStepRangesFromIP := fun _ _ => none
      getSequencePoints := fun _ => none }
  module :=
    ⟨some "m1.dll", none, some (), none, some 100, some 64, some false, some false⟩

/-- Second module handle of the C3 witness. -/
def c3Module2 : CorModule :=
  ⟨some "m2.dll", none, some (), none, some 200, some 64, some false, some false⟩

/-- Second module of the C3 witness: its provider resolves the line. -/
def c3Info2 : ModuleInfo where
  symbols :=
    { resolveSequencePoint := fun _ _ _ => some (77, 8)
      getLineByILOffset := fun _ _ => some (42, "/src/a.cs")
      getStepRangesFromIP := fun _ _ => none
      getSequencePoints := fun _ => none }
  module := c3Module2

/-- C3 witness: with two registered modules of which only the second
resolves the location, the second module's resolution is returned and the
first module's failure is not fatal. -/
theorem getLocationInAny_first_success_witness :
    Modules.GetLocationInAny [(100, c3Info1), (200, c3Info2)] "a.cs" 42 =
      some ⟨8, 77, "/src/a.cs", c3Module2⟩ :=
  getLocationInAny_first_success "a.cs" 42 [(100, c3Info1)] [] 200 77 8 200 42
    c3Info2 "/src/a.cs"
    (by
      intro entry he
      rw [List.mem_singleton] at he
      subst he
      exact ⟨100, rfl, Or.inl rfl⟩)
    rfl rfl rfl

theorem loadSymbols_isSome_iff_handle (env : SymEnv) (m : CorModule) :
    (SymbolReader.LoadSymbols env m SymbolReader.new).1.isSome = true ↔
      (SymbolReader.LoadSymbols env m SymbolReader.new).2.handle ≠ 0 := by
  simp only [SymbolReader.LoadSymbols, SymbolReader.new]
  cases m.isDynamic with
  | none => simp
  | some isDynamic =>
    cases m.isInMemory with
    | none => simp
    | some isInMemory =>
      by_cases hd : isDynamic
      · simp [hd]
      · simp only [hd, if_false]
        cases m.baseAddress with
        | none => simp
        | some peAddress =>
          cases m.size with
          | none => simp
          | some peSize =>
            simp only [SymbolReader.LoadSymbolsForPortablePDB]
            cases env.loadSymbolsForModuleDelegate with
            | none => simp
            | some d =>
              by_cases hz :
                  d (if ¬ isInMemory ∧ Modules.GetModuleFileName m ≠ ""
                     then some (Modules.GetModuleFileName m) else none)
                    isInMemory peAddress peSize = 0
              · simp [hz]
              · simp [hz]

/-- C4: for every module handle that yields metadata (and whose id, base
address and size are available) registered at a base address not already in
the registry: when the `ShouldLoadSymbolsForModule` predicate rejects the
path the record is marked `SymbolsSkipped` and no symbol-load attempt is
made (the stored reader is the untouched fresh one); when the predicate
accepts and `LoadSymbols` fails the record is marked `SymbolsNotFound`;
when it succeeds the record is marked `SymbolsLoaded`; and in each case the
record is inserted into the registry keyed by the module's base address. -/
theorem tryLoadModuleSymbols_symbolStatus
    (shouldLoad : String → Bool) (env : SymEnv) (m : CorModule)
    (reg : List (Nat × RegEntry)) (mvid : GUID) (base sz : Nat)
    (hmd : m.metaDataImport = some ())
    (hmv : m.scopeMvid = some mvid)
    (hb : m.baseAddress = some base)
    (hs : m.size = some sz)
    (hfresh : mapFind base reg = none) :
    ∃ rec reg1,
      Modules.TryLoadModuleSymbols shouldLoad env m reg = some (rec, reg1) ∧
      rec.baseAddress = base ∧
      (shouldLoad (Modules.GetModuleFileName m) = false →
        rec.symbolStatus = SymbolStatus.SymbolsSkipped ∧
        mapFind base reg1 = some ⟨SymbolReader.new, m⟩ ∧
        SymbolReader.new.loadAttempted = false) ∧
      (shouldLoad (Modules.GetModuleFileName m) = true →
        mapFind base reg1 =
          some ⟨(SymbolReader.LoadSymbols env m SymbolReader.new).2, m⟩ ∧
        ((SymbolReader.LoadSymbols env m SymbolReader.new).1 = none →
          rec.symbolStatus = SymbolStatus.SymbolsNotFound) ∧
        (∀ u, (SymbolReader.LoadSymbols env m SymbolReader.new).1 = some u →
          rec.symbolStatus = SymbolStatus.SymbolsLoaded)) := by
  by_cases hp : shouldLoad (Modules.GetModuleFileName m) = true
  · have heq : Modules.TryLoadModuleSymbols shouldLoad env m reg =
        some (⟨Modules.GetModuleFileName m,
               GetFileName (Modules.GetModuleFileName m),
               (if (SymbolReader.LoadSymbols env m SymbolReader.new).2.SymbolsLoaded
                then SymbolStatus.SymbolsLoaded else SymbolStatus.SymbolsNotFound),
               String.mk (mvidChars mvid), base, sz⟩,
              mapInsert base ⟨(SymbolReader.LoadSymbols env m SymbolReader.new).2, m⟩
                reg) := by
      simp [Modules.TryLoadModuleSymbols, Modules.GetModuleId, hmd, hmv, hb, hs, hp]
    refine ⟨_, _, heq, rfl, ?_, ?_⟩
    · intro hfalse
      rw [hfalse] at hp
      exact absurd hp (by simp)
    · intro _
      refine ⟨mapFind_mapInsert_fresh base _ reg hfresh, ?_, ?_⟩
      · intro hnone
        have hh : ¬ ((SymbolReader.LoadSymbols env m SymbolReader.new).2.handle ≠ 0) := by
          rw [← loadSymbols_isSome_iff_handle, hnone]
          simp
        simp only [SymbolReaderState.SymbolsLoaded]
        simp [hh]
      · intro u hsome
        have hh : (SymbolReader.LoadSymbols env m SymbolReader.new).2.handle ≠ 0 := by
          rw [← loadSymbols_isSome_iff_handle, hsome]
          simp
        simp only [SymbolReaderState.SymbolsLoaded]
        simp [hh]
  · have hp' : shouldLoad (Modules.GetModuleFileName m) = false := by
      cases hval : shouldLoad (Modules.GetModuleFileName m)
      · rfl
      · exact absurd hval hp
    have heq : Modules.TryLoadModuleSymbols shouldLoad env m reg =
        some (⟨Modules.GetModuleFileName m,
               GetFileName (Modules.GetModuleFileName m),
               SymbolStatus.SymbolsSkipped,
               String.mk (mvidChars mvid), base, sz⟩,
              mapInsert base ⟨SymbolReader.new, m⟩ reg) := by
      simp [Modules.TryLoadModuleSymbols, Modules.GetModuleId, hmd, hmv, hb, hs, hp']
    refine ⟨_, _, heq, rfl, ?_, ?_⟩
    · intro _
      exact ⟨rfl, mapFind_mapInsert_fresh base _ reg hfresh, rfl⟩
    · intro htrue
      rw [htrue] at hp'
      exact absurd hp' (by simp)

/-- Concrete module version identifier for the C4 witness. -/
def c4Guid : GUID := ⟨1, 2, 3, 4, 5, 6, 7, 8, 9, 10, 11⟩

/-- Concrete module handle for the C4 witness. -/
def c4Module : CorModule :=
  ⟨some "/bin/app.dll", none, some (), some c4Guid, some 300, some 128,
   some false, some false⟩

/-- Concrete symbol environment (delegate returning handle 7) for the C4
witness. -/
def c4Env : SymEnv := ⟨some (fun _ _ _ _ => 7)⟩

/-- C4 witness: registering the concrete module into an empty registry with
an accepting predicate. -/
theorem tryLoadModuleSymbols_symbolStatus_witness :
    ∃ rec reg1,
      Modules.TryLoadModuleSymbols (fun _ => true) c4Env c4Module [] =
        some (rec, reg1) ∧
      rec.baseAddress = 300 ∧
      ((fun (_ : String) => true) (Modules.GetModuleFileName c4Module) = false →
        rec.symbolStatus = SymbolStatus.SymbolsSkipped ∧
        mapFind 300 reg1 = some ⟨SymbolReader.new, c4Module⟩ ∧
        SymbolReader.new.loadAttempted = false) ∧
      ((fun (_ : String) => true) (Modules.GetModuleFileName c4Module) = true →
        mapFind 300 reg1 =
          some ⟨(SymbolReader.LoadSymbols c4Env c4Module SymbolReader.new).2, c4Module⟩ ∧
        ((SymbolReader.LoadSymbols c4Env c4Module SymbolReader.new).1 = none →
          rec.symbolStatus = SymbolStatus.SymbolsNotFound) ∧
        (∀ u, (SymbolReader.LoadSymbols c4Env c4Module SymbolReader.new).1 = some u →
          rec.symbolStatus = SymbolStatus.SymbolsLoaded)) :=
  tryLoadModuleSymbols_symbolStatus (fun _ => true) c4Env c4Module [] c4Guid 300 128
    rfl rfl rfl rfl rfl

/-- Run a sequence of `PrepareSymbolReader` calls on a state whose latch is
already set: every call fails and nothing changes. -/
theorem runPrep_attempted (os : List Bool) (s : PrepState) (h : s.attempted = true) :
    runPrep os s = (os.map (fun _ => HR.eFail), s) := by
  induction os with
  | nil => simp [runPrep]
  | cons o os ih => simp [runPrep, SymbolReader.PrepareSymbolReader, h, ih]

/-- C5: `PrepareSymbolReader` performs its initialization work at most once
per process: whatever the first call's outcome, after it the latch is set
and the work counter is 1, and every later call in any sequence returns
failure immediately while leaving the state (work counter included)
unchanged — so a failed first attempt is permanent and never retried, and
the first call itself fails when its initialization work fails. -/
theorem prepareSymbolReader_once_latch (o : Bool) (os : List Bool) :
    (runPrep os (SymbolReader.PrepareSymbolReader o PrepState.init).2).1 =
      os.map (fun _ => HR.eFail) ∧
    (runPrep os (SymbolReader.PrepareSymbolReader o PrepState.init).2).2 =
      (SymbolReader.PrepareSymbolReader o PrepState.init).2 ∧
    (SymbolReader.PrepareSymbolReader o PrepState.init).2.workCount = 1 ∧
    (SymbolReader.PrepareSymbolReader o PrepState.init).2.attempted = true ∧
    (o = false → (SymbolReader.PrepareSymbolReader o PrepState.init).1 = HR.eFail) := by
  have hs1 : (SymbolReader.PrepareSymbolReader o PrepState.init).2 = ⟨true, o, 1⟩ := by
    simp [SymbolReader.PrepareSymbolReader, PrepState.init]
  rw [hs1, runPrep_attempted os ⟨true, o, 1⟩ rfl]
  refine ⟨rfl, rfl, rfl, rfl, ?_⟩
  intro ho
  simp [SymbolReader.PrepareSymbolReader, PrepState.init, ho]

/-- C5 witness: a failing first call followed by two later calls with a
then-healthy environment: both still fail and no further work happens. -/
theorem prepareSymbolReader_once_latch_witness :
    (runPrep [true, true] (SymbolReader.PrepareSymbolReader false PrepState.init).2).1 =
      [true, true].map (fun _ => HR.eFail) ∧
    (runPrep [true, true] (SymbolReader.PrepareSymbolReader false PrepState.init).2).2 =
      (SymbolReader.PrepareSymbolReader false PrepState.init).2 ∧
    (SymbolReader.PrepareSymbolReader false PrepState.init).2.workCount = 1 ∧
    (SymbolReader.PrepareSymbolReader false PrepState.init).2.attempted = true ∧
    (false = false → (SymbolReader.PrepareSymbolReader false PrepState.init).1 = HR.eFail) :=
  prepareSymbolReader_once_latch false [true, true]

/-- C6 (amended): registration keeps at most one record per distinct base
address — the registry's key list stays strictly sorted and duplicate-free —
but registering a module whose base address already has a live record is a
silent no-op on the registry (the existing record is kept, the new one is
discarded) and the call still reports success; no error is reported. -/
theorem tryLoadModuleSymbols_duplicate_base
    (shouldLoad : String → Bool) (env : SymEnv) (m : CorModule)
    (reg : List (Nat × RegEntry)) (mvid : GUID) (base sz : Nat)
    (hmd : m.metaDataImport = some ())
    (hmv : m.scopeMvid = some mvid)
    (hb : m.baseAddress = some base)
    (hs : m.size = some sz)
    (hsorted : (reg.map Prod.fst).Pairwise (· < ·)) :
    ∃ rec reg1,
      Modules.TryLoadModuleSymbols shouldLoad env m reg = some (rec, reg1) ∧
      ((reg1.map Prod.fst).Pairwise (· < ·)) ∧
      (reg1.map Prod.fst).Nodup ∧
      (∀ old, mapFind base reg = some old → reg1 = reg ∧ mapFind base reg1 = some old) := by
  have heq : Modules.TryLoadModuleSymbols shouldLoad env m reg =
      some (⟨Modules.GetModuleFileName m,
             GetFileName (Modules.GetModuleFileName m),
             (if shouldLoad (Modules.GetModuleFileName m) then
                (if (SymbolReader.LoadSymbols env m SymbolReader.new).2.SymbolsLoaded
                 then SymbolStatus.SymbolsLoaded else SymbolStatus.SymbolsNotFound)
              else SymbolStatus.SymbolsSkipped),
             String.mk (mvidChars mvid), base, sz⟩,
            mapInsert base
              ⟨(if shouldLoad (Modules.GetModuleFileName m) then
                  (SymbolReader.LoadSymbols env m SymbolReader.new).2
                else SymbolReader.new), m⟩ reg) := by
    simp only [Modules.TryLoadModuleSymbols, Modules.GetModuleId, hmd, hmv, hb, hs,
               Option.bind_some, Option.some_bind, Option.pure_def]
    by_cases hpv : shouldLoad (Modules.GetModuleFileName m) = true
    · simp [hpv]
    · simp [hpv]
  have hsorted1 := mapInsert_keys_sorted base
    ⟨(if shouldLoad (Modules.GetModuleFileName m) then
        (SymbolReader.LoadSymbols env m SymbolReader.new).2
      else SymbolReader.new), m⟩ reg hsorted
  refine ⟨_, _, heq, hsorted1, hsorted1.imp (fun h => Nat.ne_of_lt h), ?_⟩
  intro old hold
  have hno := mapInsert_of_find_some base
    ⟨(if shouldLoad (Modules.GetModuleFileName m) then
        (SymbolReader.LoadSymbols env m SymbolReader.new).2
      else SymbolReader.new), m⟩ old reg hsorted hold
  exact ⟨hno, by rw [hno]; exact hold⟩

/-- The record already registered at base address 100 in the C6 scenario. -/
def c6Old : RegEntry :=
  ⟨⟨5, true⟩, ⟨some "old.dll", none, some (), none, some 100, some 32,
               some false, some false⟩⟩

/-- Registry holding the live record at base address 100 for C6. -/
def c6Reg : List (Nat × RegEntry) := [(100, c6Old)]

/-- A different module whose base address collides with the live record. -/
def c6Module : CorModule :=
  ⟨some "new.dll", none, some (), some ⟨9, 9, 9, 9, 9, 9, 9, 9, 9, 9, 9⟩,
   some 100, some 64, some false, some false⟩

/-- Empty symbol environment for the C6 scenario. -/
def c6Env : SymEnv := ⟨none⟩

/-- C6 counterexample: registering a module at a base address that already
has a live record returns success (`S_OK`, not an error) and silently keeps
the prior record — the claim that the collision "is reported as an error"
is false; only the no-overwrite half of the claim holds. -/
theorem tryLoadModuleSymbols_duplicate_base_counterexample :
    mapFind 100 c6Reg = some c6Old ∧
    (Modules.TryLoadModuleSymbols (fun _ => false) c6Env c6Module c6Reg).isSome = true ∧
    (Modules.TryLoadModuleSymbols (fun _ => false) c6Env c6Module c6Reg).map
        Prod.snd = some c6Reg :=
  ⟨rfl, rfl, rfl⟩

/-- C6 witness: the amended statement at the concrete colliding
registration. -/
theorem tryLoadModuleSymbols_duplicate_base_witness :
    ∃ rec reg1,
      Modules.TryLoadModuleSymbols (fun _ => false) c6Env c6Module c6Reg =
        some (rec, reg1) ∧
      ((reg1.map Prod.fst).Pairwise (· < ·)) ∧
      (reg1.map Prod.fst).Nodup ∧
      (∀ old, mapFind 100 c6Reg = some old →
        reg1 = c6Reg ∧ mapFind 100 reg1 = some old) :=
  tryLoadModuleSymbols_duplicate_base (fun _ => false) c6Env c6Module c6Reg
    ⟨9, 9, 9, 9, 9, 9, 9, 9, 9, 9, 9⟩ 100 64 rfl rfl rfl rfl (by decide)

/-- C7 (amended): a module whose handle reports `IsDynamic = true` never
loads symbols — `LoadSymbols` fails outright — yet registration itself
still succeeds, recording the module with `symbolStatus = SymbolsNotFound`
(when the symbol-load predicate accepts its path), never `SymbolsLoaded`.
In-memory non-dynamic modules are not covered by this rule: the source
checks only `IsDynamic`, and an in-memory module's symbol load may
succeed. -/
theorem tryLoadModuleSymbols_dynamic_notfound
    (shouldLoad : String → Bool) (env : SymEnv) (m : CorModule)
    (reg : List (Nat × RegEntry)) (mvid : GUID) (base sz : Nat)
    (hmd : m.metaDataImport = some ())
    (hmv : m.scopeMvid = some mvid)
    (hb : m.baseAddress = some base)
    (hs : m.size = some sz)
    (hdyn : m.isDynamic = some true)
    (haccept : shouldLoad (Modules.GetModuleFileName m) = true) :
    (SymbolReader.LoadSymbols env m SymbolReader.new).1 = none ∧
    ∃ rec reg1,
      Modules.TryLoadModuleSymbols shouldLoad env m reg = some (rec, reg1) ∧
      rec.symbolStatus = SymbolStatus.SymbolsNotFound := by
  have hload : SymbolReader.LoadSymbols env m SymbolReader.new =
      (none, ⟨0, true⟩) := by
    cases him : m.isInMemory with
    | none => simp [SymbolReader.LoadSymbols, hdyn, him, SymbolReader.new]
    | some b => simp [SymbolReader.LoadSymbols, hdyn, him, SymbolReader.new]
  refine ⟨by rw [hload], ?_⟩
  have heq : Modules.TryLoadModuleSymbols shouldLoad env m reg =
      some (⟨Modules.GetModuleFileName m,
             GetFileName (Modules.GetModuleFileName m),
             SymbolStatus.SymbolsNotFound,
             String.mk (mvidChars mvid), base, sz⟩,
            mapInsert base ⟨⟨0, true⟩, m⟩ reg) := by
    simp [Modules.TryLoadModuleSymbols, Modules.GetModuleId, hmd, hmv, hb, hs,
          haccept, hload, SymbolReaderState.SymbolsLoaded]
  exact ⟨_, _, heq, rfl⟩

/-- Concrete dynamic module handle for the C7 witness. -/
def c7DynModule : CorModule :=
  ⟨some "dyn.dll", none, some (), some ⟨1, 1, 1, 1, 1, 1, 1, 1, 1, 1, 1⟩,
   some 500, some 16, some true, some false⟩

/-- Symbol environment with a working delegate for the C7 scenario. -/
def c7Env : SymEnv := ⟨some (fun _ _ _ _ => 7)⟩

/-- C7 witness: the concrete dynamic module fails symbol loading and is
registered as `SymbolsNotFound`. -/
theorem tryLoadModuleSymbols_dynamic_notfound_witness :
    (SymbolReader.LoadSymbols c7Env c7DynModule SymbolReader.new).1 = none ∧
    ∃ rec reg1,
      Modules.TryLoadModuleSymbols (fun _ => true) c7Env c7DynModule [] =
        some (rec, reg1) ∧
      rec.symbolStatus = SymbolStatus.SymbolsNotFound :=
  tryLoadModuleSymbols_dynamic_notfound (fun _ => true) c7Env c7DynModule []
    ⟨1, 1, 1, 1, 1, 1, 1, 1, 1, 1, 1⟩ 500 16 rfl rfl rfl rfl rfl rfl

/-- Concrete in-memory, non-dynamic module handle for the C7
counterexample. -/
def c7MemModule : CorModule :=
  ⟨some "mem.dll", none, some (), some ⟨1, 2, 3, 4, 5, 6, 7, 8, 9, 10, 11⟩,
   some 400, some 16, some false, some true⟩

/-- C7 counterexample: an in-memory (non-dynamic) module whose managed
delegate succeeds is registered with `symbolStatus = SymbolsLoaded` — the
claim that every `IsInMemory = true` module ends up `SymbolsNotFound` and
never `SymbolsLoaded` is false: the source's `LoadSymbols` rejects only
dynamic modules and deliberately supports in-memory PE reading. -/
theorem tryLoadModuleSymbols_dynamic_notfound_counterexample :
    c7MemModule.isInMemory = some true ∧
    c7MemModule.isDynamic = some false ∧
    (Modules.TryLoadModuleSymbols (fun _ => true) c7Env c7MemModule []).map
        (fun r => r.1.symbolStatus) = some SymbolStatus.SymbolsLoaded :=
  ⟨rfl, rfl, rfl⟩

/-- C8 (spec-modelled provider): whenever the managed line mapping resolves
a method token and IL offset to the hidden-line marker `0xfeefee`, the
provider operation `GetLineByILOffset` fails, yielding no line/filename
result — the hidden line is filtered on the managed side and the native
wrapper returns a failure HRESULT. -/
theorem getLineByILOffset_hidden_fails
    (handle : Nat) (lines : Nat → Nat → Option (Nat × String))
    (methodToken ilOffset line : Nat) (f : String)
    (hres : lines methodToken ilOffset = some (line, f))
    (hhid : line = SymbolReader.HiddenLine) :
    SymbolReader.GetLineByILOffset handle lines methodToken ilOffset = none := by
  subst hhid
  by_cases h : handle ≠ 0
  · simp [SymbolReader.GetLineByILOffset, getLineByILOffsetDelegateModel, hres, h]
  · simp [SymbolReader.GetLineByILOffset, h]

/-- C8 witness: a mapping that resolves (5, 3) to the hidden line makes the
concrete lookup fail. -/
theorem getLineByILOffset_hidden_fails_witness :
    SymbolReader.GetLineByILOffset 1 (fun _ _ => some (16707566, "h.cs")) 5 3 = none :=
  getLineByILOffset_hidden_fails 1 (fun _ _ => some (16707566, "h.cs")) 5 3
    16707566 "h.cs" rfl rfl

/-- Lowercase hexadecimal digit test: decimal digits and the letters `a`
through `f`. -/
def isLowerHex (c : Char) : Bool :=
  (decide ('0' ≤ c) && decide (c ≤ '9')) || (decide ('a' ≤ c) && decide (c ≤ 'f'))

theorem hexDigitChar_isLowerHex : ∀ n < 16, isLowerHex (hexDigitChar n) = true := by
  decide

theorem hexDigitsF_all_hex (fuel : Nat) : ∀ n, (hexDigitsF fuel n).all isLowerHex = true := by
  induction fuel with
  | zero => intro n; rfl
  | succ fuel ih =>
    intro n
    by_cases h : n < 16
    · simp [hexDigitsF, h, hexDigitChar_isLowerHex n h]
    · have hmod : n % 16 < 16 := Nat.mod_lt n (by omega)
      simp [hexDigitsF, h, List.all_append, ih (n / 16),
            hexDigitChar_isLowerHex (n % 16) hmod]

theorem hexDigitsF_length_le (fuel : Nat) :
    ∀ n w, n < fuel → 0 < w → n < 16 ^ w → (hexDigitsF fuel n).length ≤ w := by
  induction fuel with
  | zero => intro n w h; omega
  | succ fuel ih =>
    intro n w hn hw hpow
    by_cases h : n < 16
    · simpa [hexDigitsF, h] using hw
    · have hw2 : 2 ≤ w := by
        by_contra hc
        have hw1 : w = 1 := by omega
        rw [hw1, pow_one] at hpow
        omega
      have hpow' : n < 16 ^ (w - 1) * 16 := by
        have hsplit : (16 : Nat) ^ w = 16 ^ (w - 1) * 16 := by
          conv_lhs => rw [show w = (w - 1) + 1 by omega]
          rw [pow_succ]
        omega
      have hdiv : n / 16 < 16 ^ (w - 1) := by
        rw [Nat.div_lt_iff_lt_mul (by norm_num)]
        exact hpow'
      have hrec := ih (n / 16) (w - 1) (by omega) (by omega) hdiv
      simp only [hexDigitsF, h, if_false, List.length_append, List.length_cons,
                 List.length_nil]
      omega

theorem toHexPad_length (n w : Nat) (hw : 0 < w) (hpow : n < 16 ^ w) :
    (toHexPad n w).length = w := by
  have hle : (hexDigits n).length ≤ w :=
    hexDigitsF_length_le (n + 1) n w (by omega) hw hpow
  simp only [toHexPad, List.length_append, List.length_replicate]
  omega

theorem toHexPad_all_hex (n w : Nat) : (toHexPad n w).all isLowerHex = true := by
  simp only [toHexPad, List.all_append, Bool.and_eq_true]
  refine ⟨?_, by simpa [hexDigits] using hexDigitsF_all_hex (n + 1) n⟩
  rw [List.all_eq_true]
  intro c hc
  rw [List.eq_of_mem_replicate hc]
  rfl

/-- C9: the module-identifier formatting is deterministic (it is a pure
function of the identifier value) and, for every identifier whose fields
respect their machine widths, produces the canonical hyphen-separated
lowercase zero-padded hexadecimal string: hex-digit groups of widths
8-4-4-4-12, where the fourth group is two 2-digit bytes and the fifth is six
2-digit bytes (the documented 8-4-4-2-2-6 byte grouping), every non-hyphen
character being a lowercase hexadecimal digit. -/
theorem getModuleId_canonical_format
    (m : CorModule) (g : GUID)
    (hmd : m.metaDataImport = some ())
    (hg : m.scopeMvid = some g)
    (h1 : g.data1 < 4294967296) (h2 : g.data2 < 65536) (h3 : g.data3 < 65536) :
    Modules.GetModuleId m = Modules.GetModuleId m ∧
    Modules.GetModuleId m = some (String.mk (mvidChars g)) ∧
    ∃ a b c d0 d1 e0 e1 e2 e3 e4 e5 : List Char,
      mvidChars g =
        a ++ ['-'] ++ b ++ ['-'] ++ c ++ ['-'] ++ (d0 ++ d1) ++ ['-'] ++
          (e0 ++ e1 ++ e2 ++ e3 ++ e4 ++ e5) ∧
      a.length = 8 ∧ b.length = 4 ∧ c.length = 4 ∧
      d0.length = 2 ∧ d1.length = 2 ∧ e0.length = 2 ∧ e1.length = 2 ∧
      e2.length = 2 ∧ e3.length = 2 ∧ e4.length = 2 ∧ e5.length = 2 ∧
      ((a ++ b ++ c ++ d0 ++ d1 ++ e0 ++ e1 ++ e2 ++ e3 ++ e4 ++ e5).all
        isLowerHex) = true := by
  have hpow8 : g.data1 < 16 ^ 8 := by norm_num [h1]
  have hpow4b : g.data2 < 16 ^ 4 := by norm_num [h2]
  have hpow4c : g.data3 < 16 ^ 4 := by norm_num [h3]
  have hbyte : ∀ x : Nat, x % 256 < 16 ^ 2 := by
    intro x
    have : x % 256 < 256 := Nat.mod_lt x (by norm_num)
    norm_num
    omega
  refine ⟨rfl, by simp [Modules.GetModuleId, hmd, hg], ?_⟩
  refine ⟨toHexPad g.data1 8, toHexPad g.data2 4, toHexPad g.data3 4,
          toHexPad (g.data4_0 % 256) 2, toHexPad (g.data4_1 % 256) 2,
          toHexPad (g.data4_2 % 256) 2, toHexPad (g.data4_3 % 256) 2,
          toHexPad (g.data4_4 % 256) 2, toHexPad (g.data4_5 % 256) 2,
          toHexPad (g.data4_6 % 256) 2, toHexPad (g.data4_7 % 256) 2,
          rfl,
          toHexPad_length _ 8 (by omega) hpow8,
          toHexPad_length _ 4 (by omega) hpow4b,
          toHexPad_length _ 4 (by omega) hpow4c,
          toHexPad_length _ 2 (by omega) (hbyte _),
          toHexPad_length _ 2 (by omega) (hbyte _),
          toHexPad_length _ 2 (by omega) (hbyte _),
          toHexPad_length _ 2 (by omega) (hbyte _),
          toHexPad_length _ 2 (by omega) (hbyte _),
          toHexPad_length _ 2 (by omega) (hbyte _),
          toHexPad_length _ 2 (by omega) (hbyte _),
          toHexPad_length _ 2 (by omega) (hbyte _),
          ?_⟩
  simp [List.all_append, toHexPad_all_hex]

/-- Concrete module version identifier for the C9 witness. -/
def c9Guid : GUID := ⟨305419896, 43981, 2748, 0, 255, 1, 16, 171, 205, 239, 18⟩

/-- Concrete module handle carrying the C9 identifier. -/
def c9Module : CorModule :=
  ⟨some "m.dll", none, some (), some c9Guid, some 100, some 64,
   some false, some false⟩

/-- C9 witness: the format theorem applied to the concrete 128-bit
identifier. -/
theorem getModuleId_canonical_format_witness :
    Modules.GetModuleId c9Module = Modules.GetModuleId c9Module ∧
    Modules.GetModuleId c9Module = some (String.mk (mvidChars c9Guid)) ∧
    ∃ a b c d0 d1 e0 e1 e2 e3 e4 e5 : List Char,
      mvidChars c9Guid =
        a ++ ['-'] ++ b ++ ['-'] ++ c ++ ['-'] ++ (d0 ++ d1) ++ ['-'] ++
          (e0 ++ e1 ++ e2 ++ e3 ++ e4 ++ e5) ∧
      a.length = 8 ∧ b.length = 4 ∧ c.length = 4 ∧
      d0.length = 2 ∧ d1.length = 2 ∧ e0.length = 2 ∧ e1.length = 2 ∧
      e2.length = 2 ∧ e3.length = 2 ∧ e4.length = 2 ∧ e5.length = 2 ∧
      ((a ++ b ++ c ++ d0 ++ d1 ++ e0 ++ e1 ++ e2 ++ e3 ++ e4 ++ e5).all
        isLowerHex) = true :=
  getModuleId_canonical_format c9Module c9Guid rfl rfl
    (by decide) (by decide) (by decide)
